import Mathlib

/-!
Shallow embedding of the ADJD survey backend's email-communication service
and the survey conditional-question validation, with theorems checking the
specification's claims against the code.

Python strings that the code splits, joins or strips are modelled as
`List Char`; other strings are Lean `String`.
-/

set_option maxHeartbeats 1000000

/-- Characters treated as whitespace by Python's str.strip(). -/
def pyIsSpace (c : Char) : Bool :=
  c = ' ' || c = '\t' || c = '\n' || c = '\x0d' || c = '\x0b' || c = '\x0c'

/-- Python's s.split(sep) for a one-character separator: "".split(sep) is [""]. -/
def pySplit (sep : Char) : List Char → List (List Char)
  | [] => [[]]
  | c :: rest =>
    if c = sep then [] :: pySplit sep rest
    else
      match pySplit sep rest with
      | [] => [[c]]
      | p :: ps => (c :: p) :: ps

/-- Python's sep.join(parts) for a one-character separator. -/
def pyJoin (sep : Char) : List (List Char) → List Char
  | [] => []
  | [p] => p
  | p :: ps => p ++ sep :: pyJoin sep ps

/-- Python's s.strip(): drop leading and trailing whitespace. -/
def pyStrip (l : List Char) : List Char :=
  ((l.dropWhile pyIsSpace).reverse.dropWhile pyIsSpace).reverse

/-- The decimal digit character for d < 10. -/
def digitChar (d : Nat) : Char :=
  match d with
  | 0 => '0' | 1 => '1' | 2 => '2' | 3 => '3' | 4 => '4'
  | 5 => '5' | 6 => '6' | 7 => '7' | 8 => '8' | _ => '9'

/-- Decimal digits of n, most significant first, as produced by Python's str(). -/
def natDigits (n : Nat) : List Char :=
  if _h : n < 10 then [digitChar n]
  else natDigits (n / 10) ++ [digitChar (n % 10)]
decreasing_by
  omega

/-- Python's str() on an int. -/
def pyIntStr (i : Int) : List Char :=
  if i < 0 then '-' :: natDigits i.natAbs else natDigits i.toNat

/-- Numeric value of a decimal digit character. -/
def digitVal (c : Char) : Nat := c.toNat - 48

/-- Parse an unsigned decimal numeral. -/
def parseNat (l : List Char) : Nat :=
  l.foldl (fun a c => 10 * a + digitVal c) 0

/-- Python's int() on an already-stripped numeral string. -/
def pyParseInt (l : List Char) : Int :=
  match l with
  | [] => 0
  | c :: rest =>
    if c = '-' then -(parseNat rest : Int)
    else if c = '+' then (parseNat rest : Int)
    else parseNat l

/-- `EmailDraft.set_cost_center_list`: store ids as a comma-separated string. -/
def EmailDraft.set_cost_center_list (ids : List Int) : List Char :=
  pyJoin ',' (ids.map pyIntStr)

/-- `EmailDraft.get_cost_center_list`: parse ids from the text field
(`none` models an unset/NULL field, `[]` an empty string, both falsy). -/
def EmailDraft.get_cost_center_list (field : Option (List Char)) : List Int :=
  match field with
  | none => []
  | some s =>
    if s = [] then []
    else (((pySplit ',' s).map pyStrip).filter (· ≠ [])).map pyParseInt

/-- `EmailLog.set_recipient_list`: store emails as a comma-separated string. -/
def EmailLog.set_recipient_list (emails : List (List Char)) : List Char :=
  pyJoin ',' emails

/-- `EmailLog.get_recipient_list`: parse emails from the text field. -/
def EmailLog.get_recipient_list (field : Option (List Char)) : List (List Char) :=
  match field with
  | none => []
  | some s =>
    if s = [] then []
    else ((pySplit ',' s).map pyStrip).filter (· ≠ [])

/-! ## Data model of the email_communication app -/

/-- A row of email_costcenter together with its related CostCenterEmail rows:
`recipient_emails` are the emails of type 'recipient' (TO), `cc_emails` those
of type 'cc', as returned by `get_recipient_emails` / `get_cc_emails`. -/
structure CostCenter where
  id : Nat
  cost_center_code : String
  is_active : Bool
  recipient_emails : List String
  cc_emails : List String
deriving DecidableEq, Repr

/-- A user of the auth user model: primary key and email address. -/
structure UserRec where
  id : Nat
  email : String
deriving DecidableEq, Repr

/-- A row of email_log (the fields the service writes). -/
structure EmailLogRow where
  id : Nat
  user : Option Nat
  cost_center : Option Nat
  send_type : String
  email_type : String
  subject : String
  body_html : String
  recipient_emails : String
  cc_emails : Option String
  email_status : String
  email_error : Option String
deriving DecidableEq, Repr

/-- A row of email_recipient_view; read_at is an abstract timestamp. -/
structure RecipientViewRow where
  email_log : Nat
  recipient_user : Nat
  is_to : Bool
  is_read : Bool
  read_at : Option Nat
  is_starred : Bool
  is_archived : Bool
deriving DecidableEq, Repr

/-- The database state the email service reads and writes. -/
structure DB where
  cost_centers : List CostCenter
  users : List UserRec
  email_logs : List EmailLogRow
  recipient_views : List RecipientViewRow
  next_log_id : Nat
deriving DecidableEq, Repr

/-- `CostCenterManager.active`: the active cost centers. -/
def CostCenterManager.active (db : DB) : List CostCenter :=
  db.cost_centers.filter (·.is_active)

/-- `EmailRecipientView.mark_as_read`: set is_read and stamp read_at, only
when the row is not yet read; save touches only is_read and read_at. -/
def EmailRecipientView.mark_as_read (now : Nat) (r : RecipientViewRow) :
    RecipientViewRow :=
  if r.is_read then r
  else { r with is_read := true, read_at := some now }

/-! ## EmailService.send_email and its helpers -/

/-- The per-cost-center result dict built by `_send_to_cost_center`. -/
structure CCResult where
  success : Bool
  cost_center : String
  error : Option String
  log_id : Option Nat
deriving DecidableEq, Repr

/-- The dict returned by `EmailService.send_email`: either an error dict or
the summary dict built after the per-cost-center loop. -/
inductive SendEmailResult where
  | failure (error : String)
  | summary (success : Bool) (sent_count failed_count total_cost_centers : Nat)
      (sent_log_id : Option Nat) (details : List CCResult)
deriving DecidableEq, Repr

/-- `_create_recipient_tracking`, TO half: one row per user whose email is in
the TO list, appended in order. -/
def addToRows (logId : Nat) (toUsers : List UserRec)
    (views : List RecipientViewRow) : List RecipientViewRow :=
  views ++ toUsers.map (fun u =>
    { email_log := logId, recipient_user := u.id, is_to := true,
      is_read := false, read_at := none, is_starred := false,
      is_archived := false })

/-- `_create_recipient_tracking`, CC half: one row per CC user, skipped when a
row for the same (email_log, recipient_user) pair already exists. -/
def addCcRows (logId : Nat) : List UserRec → List RecipientViewRow →
    List RecipientViewRow
  | [], views => views
  | u :: rest, views =>
    if views.any (fun r => r.email_log = logId ∧ r.recipient_user = u.id) then
      addCcRows logId rest views
    else
      addCcRows logId rest (views ++
        [{ email_log := logId, recipient_user := u.id, is_to := false,
           is_read := false, read_at := none, is_starred := false,
           is_archived := false }])

/-- `EmailService._create_recipient_tracking`: map the TO and CC emails to
users and create tracking rows, deduplicating users in both lists. -/
def EmailService.create_recipient_tracking (db : DB) (logId : Nat)
    (to_emails cc_emails : List String) : DB :=
  let toUsers := db.users.filter (fun u => decide (u.email ∈ to_emails))
  let ccUsers := db.users.filter (fun u => decide (u.email ∈ cc_emails))
  { db with recipient_views :=
      addCcRows logId ccUsers (addToRows logId toUsers db.recipient_views) }

/-- `EmailService._send_to_cost_center`: create the RECEIVED log for one cost
center (unless it has no TO recipients) and, when the transmission succeeded,
the tracking rows. `sendOk` tells whether `_send_actual_email` succeeds for a
given cost center id. -/
def EmailService.send_to_cost_center (sendOk : Nat → Bool) (uid : Nat)
    (send_type subject body_html : String) (db : DB) (c : CostCenter) :
    DB × CCResult :=
  if c.recipient_emails = [] then
    (db, { success := false, cost_center := c.cost_center_code,
           error := some ("No users in cost center"), log_id := none })
  else
    let email_sent := sendOk c.id
    let logId := db.next_log_id
    let row : EmailLogRow :=
      { id := logId, user := some uid, cost_center := some c.id,
        send_type := send_type, email_type := "RECEIVED", subject := subject,
        body_html := body_html,
        recipient_emails := String.intercalate ("," ) c.recipient_emails,
        cc_emails := if c.cc_emails = [] then none
          else some (String.intercalate ("," ) c.cc_emails),
        email_status := if email_sent then "SUCCESS" else "FAILED",
        email_error := if email_sent then none
          else some ("Email sending failed") }
    let db1 : DB := { db with email_logs := db.email_logs ++ [row],
                              next_log_id := logId + 1 }
    let db2 := if email_sent then
        EmailService.create_recipient_tracking db1 logId
          c.recipient_emails c.cc_emails
      else db1
    (db2, { success := email_sent, cost_center := c.cost_center_code,
            error := none, log_id := some logId })

/-- `EmailService._create_sent_log`: the single SENT outbox row, with all
recipients of all targeted cost centers aggregated and no cost center link. -/
def EmailService.create_sent_log (db : DB) (uid : Nat)
    (send_type subject body_html : String) (ccs : List CostCenter)
    (status : String) (err : Option String) : DB × Nat :=
  let all_to := ccs.flatMap (·.recipient_emails)
  let all_cc := ccs.flatMap (·.cc_emails)
  let logId := db.next_log_id
  let row : EmailLogRow :=
    { id := logId, user := some uid, cost_center := none,
      send_type := send_type, email_type := "SENT", subject := subject,
      body_html := body_html,
      recipient_emails := String.intercalate ("," ) all_to,
      cc_emails := if all_cc = [] then none
        else some (String.intercalate ("," ) all_cc),
      email_status := status, email_error := err }
  ({ db with email_logs := db.email_logs ++ [row], next_log_id := logId + 1 },
   logId)

/-- The targeting step of `send_email`: which cost centers are addressed, or
which validation error dict is returned. -/
def EmailService.targetCostCenters (db : DB) (send_type : String)
    (cost_center_ids : Option (List Nat)) : Except String (List CostCenter) :=
  if send_type = "ANNOUNCEMENT" then
    .ok (CostCenterManager.active db)
  else if send_type = "SPECIFIC" then
    match cost_center_ids with
    | none => .error ("Cost center IDs required for SPECIFIC send type")
    | some ids =>
      if ids = [] then
        .error ("Cost center IDs required for SPECIFIC send type")
      else
        .ok (db.cost_centers.filter (fun c =>
          decide (c.id ∈ ids) && c.is_active))
  else
    .error ("Invalid send type")

/-- The per-cost-center loop of `send_email` after the first iteration (the
sent log has already been created). -/
def EmailService.processRest (sendOk : Nat → Bool) (uid : Nat)
    (send_type subject body_html : String) :
    DB → List CostCenter → DB × List CCResult
  | db, [] => (db, [])
  | db, c :: cs =>
    let p := EmailService.send_to_cost_center sendOk uid send_type subject
      body_html db c
    let q := EmailService.processRest sendOk uid send_type subject body_html
      p.1 cs
    (q.1, p.2 :: q.2)

/-- `EmailService.send_email`: validate the targeting, loop over the targeted
cost centers creating one RECEIVED log each (plus tracking rows), create the
single SENT log after the first iteration, and build the summary dict. All
state changes are inside one transaction, so an error dict leaves the
database unchanged. -/
def EmailService.send_email (sendOk : Nat → Bool) (db : DB) (uid : Nat)
    (send_type subject body_html : String)
    (cost_center_ids : Option (List Nat)) : DB × SendEmailResult :=
  match EmailService.targetCostCenters db send_type cost_center_ids with
  | .error e => (db, .failure e)
  | .ok ccs =>
    match ccs with
    | [] => (db, .failure ("No active cost centers found"))
    | c :: rest =>
      let p1 := EmailService.send_to_cost_center sendOk uid send_type subject
        body_html db c
      let p2 := EmailService.create_sent_log p1.1 uid send_type subject
        body_html (c :: rest)
        (if p1.2.success then "SUCCESS" else "FAILED") p1.2.error
      let p3 := EmailService.processRest sendOk uid send_type subject
        body_html p2.1 rest
      let results := p1.2 :: p3.2
      let successful := (results.filter (·.success)).length
      let failed := results.length - successful
      (p3.1, .summary (successful > 0) successful failed results.length
        (some p2.2) results)

/-! ## Survey conditional-question validation (surveys app) -/

/-- A question of a survey: its survey, its type and its display order. -/
structure Question where
  survey_id : Nat
  question_type : String
  order : Int
deriving DecidableEq, Repr

/-- Modelled from the spec: the repository ships only the tests of
`surveys.models.QuestionCondition`, not the model itself. The spec describes
its validation as "ordering constraints between trigger and dependent
questions, type restrictions on trigger questions, same-survey constraints",
and the tests pin the error messages. The validator collects the messages of
every violated constraint. -/
def QuestionCondition.validate (trigger dependent : Question) : List String :=
  (if trigger.survey_id = dependent.survey_id then []
   else ["Trigger and dependent questions must be in the same survey"])
  ++ (if trigger.question_type = "yes_no" ∨
        trigger.question_type = "single_choice" then []
      else ["Only yes/no and single choice questions can be triggers"])
  ++ (if trigger.order < dependent.order then []
      else ["Trigger question must appear before the dependent question"])

/-- Modelled from the spec: saving a QuestionCondition runs the validation and
raises ValidationError with the collected messages when any constraint is
violated. -/
def QuestionCondition.save (trigger dependent : Question) :
    Except (List String) Unit :=
  match QuestionCondition.validate trigger dependent with
  | [] => .ok ()
  | errs => .error errs

/-! ## Shared lemmas about the survey validation -/

deriving instance DecidableEq for Except

theorem QuestionCondition.save_ok_iff (t d : Question) :
    QuestionCondition.save t d = .ok () ↔
      QuestionCondition.validate t d = [] := by
  unfold QuestionCondition.save
  cases h : QuestionCondition.validate t d <;> simp

theorem QuestionCondition.validate_eq_nil_iff (t d : Question) :
    QuestionCondition.validate t d = [] ↔
      (t.survey_id = d.survey_id ∧
       (t.question_type = "yes_no" ∨ t.question_type = "single_choice") ∧
       t.order < d.order) := by
  unfold QuestionCondition.validate
  split <;> split <;> split <;> simp_all

theorem QuestionCondition.save_error_of_ne (t d : Question)
    (h : QuestionCondition.validate t d ≠ []) :
    QuestionCondition.save t d = .error (QuestionCondition.validate t d) := by
  unfold QuestionCondition.save
  cases hv : QuestionCondition.validate t d with
  | nil => exact absurd hv h
  | cons a l => rfl

/-- C3: a QuestionCondition saves successfully only when the trigger
question's order is strictly below the dependent question's order; whenever
the trigger does not appear before the dependent, saving raises a
ValidationError containing the message about trigger ordering; and the
ordering rule makes a circular pair of conditions impossible. -/
theorem claim_C3 :
    (∀ t d : Question, QuestionCondition.save t d = .ok () →
       t.order < d.order)
    ∧ (∀ t d : Question, ¬ t.order < d.order →
        ∃ errs, QuestionCondition.save t d = .error errs ∧
          ("Trigger question must appear before the dependent question"
            : String) ∈ errs)
    ∧ (∀ q1 q2 : Question, QuestionCondition.save q1 q2 = .ok () →
        QuestionCondition.save q2 q1 = .ok () → False) := by
  refine ⟨?_, ?_, ?_⟩
  · intro t d h
    exact (((QuestionCondition.validate_eq_nil_iff t d).1
      ((QuestionCondition.save_ok_iff t d).1 h)).2).2
  · intro t d h
    refine ⟨QuestionCondition.validate t d, ?_, ?_⟩
    · refine QuestionCondition.save_error_of_ne t d ?_
      intro hnil
      exact h ((QuestionCondition.validate_eq_nil_iff t d).1 hnil).2.2
    · unfold QuestionCondition.validate
      rw [if_neg h]
      simp
  · intro q1 q2 h1 h2
    have o1 := (((QuestionCondition.validate_eq_nil_iff q1 q2).1
      ((QuestionCondition.save_ok_iff q1 q2).1 h1)).2).2
    have o2 := (((QuestionCondition.validate_eq_nil_iff q2 q1).1
      ((QuestionCondition.save_ok_iff q2 q1).1 h2)).2).2
    omega

/-- Witness for C3 at concrete questions. -/
theorem claim_C3_witness :
    ((⟨1, "yes_no", 1⟩ : Question).order < (⟨1, "text", 2⟩ : Question).order)
    ∧ (∃ errs,
        QuestionCondition.save ⟨1, "yes_no", 10⟩ ⟨1, "text", 5⟩ = .error errs ∧
        ("Trigger question must appear before the dependent question"
          : String) ∈ errs) :=
  ⟨claim_C3.1 ⟨1, "yes_no", 1⟩ ⟨1, "text", 2⟩ (by decide),
   claim_C3.2.1 ⟨1, "yes_no", 10⟩ ⟨1, "text", 5⟩ (by decide)⟩

/-- C4: a QuestionCondition saves successfully only when the trigger
question's type is yes_no or single_choice; any other trigger type (such as
text) makes saving raise a ValidationError containing the message about
allowed trigger types. -/
theorem claim_C4 :
    (∀ t d : Question, QuestionCondition.save t d = .ok () →
       t.question_type = "yes_no" ∨ t.question_type = "single_choice")
    ∧ (∀ t d : Question,
        ¬ (t.question_type = "yes_no" ∨ t.question_type = "single_choice") →
        ∃ errs, QuestionCondition.save t d = .error errs ∧
          ("Only yes/no and single choice questions can be triggers"
            : String) ∈ errs) := by
  refine ⟨?_, ?_⟩
  · intro t d h
    exact (((QuestionCondition.validate_eq_nil_iff t d).1
      ((QuestionCondition.save_ok_iff t d).1 h)).2).1
  · intro t d h
    refine ⟨QuestionCondition.validate t d, ?_, ?_⟩
    · refine QuestionCondition.save_error_of_ne t d ?_
      intro hnil
      exact h ((QuestionCondition.validate_eq_nil_iff t d).1 hnil).2.1
    · unfold QuestionCondition.validate
      rw [if_neg h]
      simp

/-- Witness for C4 at a concrete text-typed trigger. -/
theorem claim_C4_witness :
    ((⟨1, "yes_no", 1⟩ : Question).question_type = "yes_no" ∨
      (⟨1, "yes_no", 1⟩ : Question).question_type = "single_choice")
    ∧ (∃ errs,
        QuestionCondition.save ⟨1, "text", 3⟩ ⟨1, "text", 4⟩ = .error errs ∧
        ("Only yes/no and single choice questions can be triggers"
          : String) ∈ errs) :=
  ⟨claim_C4.1 ⟨1, "yes_no", 1⟩ ⟨1, "text", 2⟩ (by decide),
   claim_C4.2 ⟨1, "text", 3⟩ ⟨1, "text", 4⟩ (by decide)⟩

/-- C5: the trigger and dependent questions of a QuestionCondition must
belong to the same survey; saving a condition across two surveys raises a
ValidationError whose message contains the quoted same-survey phrase. -/
theorem claim_C5 :
    (∀ t d : Question, QuestionCondition.save t d = .ok () →
       t.survey_id = d.survey_id)
    ∧ (∀ t d : Question, t.survey_id ≠ d.survey_id →
        ∃ errs, QuestionCondition.save t d = .error errs ∧
          ∃ m ∈ errs, List.IsInfix
            (String.data ("must be in the same survey")) (String.data m)) := by
  refine ⟨?_, ?_⟩
  · intro t d h
    exact ((QuestionCondition.validate_eq_nil_iff t d).1
      ((QuestionCondition.save_ok_iff t d).1 h)).1
  · intro t d h
    refine ⟨QuestionCondition.validate t d, ?_, ?_⟩
    · refine QuestionCondition.save_error_of_ne t d ?_
      intro hnil
      exact h ((QuestionCondition.validate_eq_nil_iff t d).1 hnil).1
    · refine ⟨"Trigger and dependent questions must be in the same survey",
        ?_, ?_⟩
      · unfold QuestionCondition.validate
        rw [if_neg h]
        simp
      · exact ⟨String.data ("Trigger and dependent questions "), [], by decide⟩

/-- Witness for C5 at concrete cross-survey questions. -/
theorem claim_C5_witness :
    ((⟨1, "yes_no", 1⟩ : Question).survey_id =
      (⟨1, "text", 2⟩ : Question).survey_id)
    ∧ (∃ errs,
        QuestionCondition.save ⟨1, "yes_no", 1⟩ ⟨2, "text", 2⟩ = .error errs ∧
        ∃ m ∈ errs, List.IsInfix
          (String.data ("must be in the same survey")) (String.data m)) :=
  ⟨claim_C5.1 ⟨1, "yes_no", 1⟩ ⟨1, "text", 2⟩ (by decide),
   claim_C5.2 ⟨1, "yes_no", 1⟩ ⟨2, "text", 2⟩ (by decide)⟩

/-- C9: mark_as_read on an unread row sets is_read and stamps read_at with
the call's time; on an already-read row it changes nothing, so a second call
never overwrites the original timestamp; and no field other than is_read and
read_at is ever modified. -/
theorem claim_C9 :
    (∀ (r : RecipientViewRow) (t : Nat), r.is_read = false →
      (EmailRecipientView.mark_as_read t r).is_read = true ∧
      (EmailRecipientView.mark_as_read t r).read_at = some t)
    ∧ (∀ (r : RecipientViewRow) (t : Nat), r.is_read = true →
        EmailRecipientView.mark_as_read t r = r)
    ∧ (∀ (r : RecipientViewRow) (t1 t2 : Nat),
        EmailRecipientView.mark_as_read t2
          (EmailRecipientView.mark_as_read t1 r) =
          EmailRecipientView.mark_as_read t1 r)
    ∧ (∀ (r : RecipientViewRow) (t : Nat),
        (EmailRecipientView.mark_as_read t r).is_starred = r.is_starred ∧
        (EmailRecipientView.mark_as_read t r).is_archived = r.is_archived ∧
        (EmailRecipientView.mark_as_read t r).is_to = r.is_to ∧
        (EmailRecipientView.mark_as_read t r).email_log = r.email_log ∧
        (EmailRecipientView.mark_as_read t r).recipient_user =
          r.recipient_user) := by
  refine ⟨?_, ?_, ?_, ?_⟩
  · intro r t h
    simp [EmailRecipientView.mark_as_read, h]
  · intro r t h
    simp [EmailRecipientView.mark_as_read, h]
  · intro r t1 t2
    unfold EmailRecipientView.mark_as_read
    by_cases h : r.is_read <;> simp [h]
  · intro r t
    unfold EmailRecipientView.mark_as_read
    by_cases h : r.is_read <;> simp [h]

/-- Witness for C9 at a concrete unread row. -/
theorem claim_C9_witness :
    ((EmailRecipientView.mark_as_read 5
        ⟨1, 2, true, false, none, false, false⟩).is_read = true ∧
      (EmailRecipientView.mark_as_read 5
        ⟨1, 2, true, false, none, false, false⟩).read_at = some 5)
    ∧ EmailRecipientView.mark_as_read 7
        ⟨1, 2, true, true, some 3, false, false⟩ =
        ⟨1, 2, true, true, some 3, false, false⟩ :=
  ⟨claim_C9.1 ⟨1, 2, true, false, none, false, false⟩ 5 (by decide),
   claim_C9.2.1 ⟨1, 2, true, true, some 3, false, false⟩ 7 (by decide)⟩

/-- C6: send_email targets all active cost centers for ANNOUNCEMENT; for
SPECIFIC it targets the active cost centers among the given ids and fails
with the required-ids error when the id list is absent or empty; any other
send type fails with the invalid-send-type error; and an empty targeted set
fails with the no-active-cost-centers error. -/
theorem claim_C6 (db : DB) (sendOk : Nat → Bool) (uid : Nat)
    (subject body_html : String) :
    (∀ ids, EmailService.targetCostCenters db ("ANNOUNCEMENT") ids =
        .ok (CostCenterManager.active db))
    ∧ (∀ ids, ids = none ∨ ids = some [] →
        EmailService.send_email sendOk db uid ("SPECIFIC") subject body_html
            ids =
          (db, .failure ("Cost center IDs required for SPECIFIC send type")))
    ∧ (∀ l : List Nat, l ≠ [] →
        EmailService.targetCostCenters db ("SPECIFIC") (some l) =
          .ok (db.cost_centers.filter (fun c =>
            decide (c.id ∈ l) && c.is_active)))
    ∧ (∀ st ids, st ≠ "ANNOUNCEMENT" → st ≠ "SPECIFIC" →
        EmailService.send_email sendOk db uid st subject body_html ids =
          (db, .failure ("Invalid send type")))
    ∧ (∀ st ids, EmailService.targetCostCenters db st ids = .ok [] →
        EmailService.send_email sendOk db uid st subject body_html ids =
          (db, .failure ("No active cost centers found"))) := by
  refine ⟨?_, ?_, ?_, ?_, ?_⟩
  · intro ids
    unfold EmailService.targetCostCenters
    rw [if_pos (by decide)]
  · intro ids h
    rcases h with h | h <;> subst h <;> rfl
  · intro l hl
    unfold EmailService.targetCostCenters
    rw [if_neg (by decide), if_pos (by decide)]
    simp [hl]
  · intro st ids h1 h2
    unfold EmailService.send_email EmailService.targetCostCenters
    rw [if_neg h1, if_neg h2]
  · intro st ids htc
    unfold EmailService.send_email
    rw [htc]

/-- Witness for C6 at a concrete database and SPECIFIC id list. -/
theorem claim_C6_witness :
    (EmailService.send_email (fun _ => true) ⟨[], [], [], [], 0⟩ 1
        ("SPECIFIC") ("s") ("b") none =
      (⟨[], [], [], [], 0⟩,
        .failure ("Cost center IDs required for SPECIFIC send type")))
    ∧ (EmailService.targetCostCenters ⟨[], [], [], [], 0⟩ ("SPECIFIC")
        (some [3]) =
      .ok ((⟨[], [], [], [], 0⟩ : DB).cost_centers.filter (fun c =>
        decide (c.id ∈ [3]) && c.is_active)))
    ∧ (EmailService.send_email (fun _ => true) ⟨[], [], [], [], 0⟩ 1
        ("BROADCAST") ("s") ("b") none =
      (⟨[], [], [], [], 0⟩, .failure ("Invalid send type")))
    ∧ (EmailService.send_email (fun _ => true) ⟨[], [], [], [], 0⟩ 1
        ("ANNOUNCEMENT") ("s") ("b") none =
      (⟨[], [], [], [], 0⟩, .failure ("No active cost centers found"))) :=
  ⟨(claim_C6 ⟨[], [], [], [], 0⟩ (fun _ => true) 1 ("s") ("b")).2.1 none
      (Or.inl rfl),
   (claim_C6 ⟨[], [], [], [], 0⟩ (fun _ => true) 1 ("s") ("b")).2.2.1 [3]
      (by decide),
   (claim_C6 ⟨[], [], [], [], 0⟩ (fun _ => true) 1 ("s") ("b")).2.2.2.1
      ("BROADCAST") none (by decide) (by decide),
   (claim_C6 ⟨[], [], [], [], 0⟩ (fun _ => true) 1 ("s") ("b")).2.2.2.2
      ("ANNOUNCEMENT") none (by decide)⟩

/-- C7: send_email is atomic on validation failure: whenever it returns an
error dict, the database state it returns is exactly the input state, so no
EmailLog row and no EmailRecipientView row was created. -/
theorem claim_C7 (sendOk : Nat → Bool) (db : DB) (uid : Nat)
    (st subject body_html : String) (ids : Option (List Nat)) (e : String)
    (h : (EmailService.send_email sendOk db uid st subject body_html ids).2 =
      .failure e) :
    (EmailService.send_email sendOk db uid st subject body_html ids).1 =
      db := by
  unfold EmailService.send_email at h ⊢
  cases htc : EmailService.targetCostCenters db st ids with
  | error e2 => rfl
  | ok ccs =>
    cases ccs with
    | nil => rfl
    | cons c rest =>
      rw [htc] at h
      simp at h

/-- Witness for C7 at a concrete invalid send type. -/
theorem claim_C7_witness :
    (EmailService.send_email (fun _ => true) ⟨[], [], [], [], 0⟩ 1
      ("BROADCAST") ("s") ("b") none).1 = ⟨[], [], [], [], 0⟩ :=
  claim_C7 (fun _ => true) ⟨[], [], [], [], 0⟩ 1 ("BROADCAST") ("s") ("b")
    none ("Invalid send type") (by decide)

/-! ## Counting lemmas for the fan-out claims -/

/-- Is this log row a SENT (outbox) row? -/
def isSentRow (r : EmailLogRow) : Bool := decide (r.email_type = "SENT")

/-- Is this log row a RECEIVED (inbox) row? -/
def isReceivedRow (r : EmailLogRow) : Bool := decide (r.email_type = "RECEIVED")

/-- Does this cost center have at least one TO recipient email? -/
def hasRecipients (c : CostCenter) : Bool := decide (c.recipient_emails ≠ [])

/-- Number of SENT log rows in the database. -/
def countSent (db : DB) : Nat := (db.email_logs.filter isSentRow).length

/-- Number of RECEIVED log rows in the database. -/
def countReceived (db : DB) : Nat :=
  (db.email_logs.filter isReceivedRow).length

/-- Number of SENT log rows linked to some cost center (outbox rows never
are). -/
def countSentWithCC (db : DB) : Nat :=
  (db.email_logs.filter (fun r =>
    isSentRow r && decide (r.cost_center ≠ none))).length

theorem stc_counts (sendOk : Nat → Bool) (uid : Nat) (st s b : String)
    (db : DB) (c : CostCenter) :
    countSent (EmailService.send_to_cost_center sendOk uid st s b db c).1 =
        countSent db ∧
    countReceived (EmailService.send_to_cost_center sendOk uid st s b db c).1
        = countReceived db + (if hasRecipients c then 1 else 0) ∧
    countSentWithCC
        (EmailService.send_to_cost_center sendOk uid st s b db c).1 =
      countSentWithCC db := by
  unfold EmailService.send_to_cost_center
  by_cases hc : c.recipient_emails = []
  · simp [hc, hasRecipients]
  · rw [if_neg hc]
    by_cases hs : sendOk c.id <;>
      simp [hs, hc, hasRecipients, countSent, countReceived, countSentWithCC,
        EmailService.create_recipient_tracking, isSentRow, isReceivedRow,
        List.filter_append]

theorem csl_counts (db : DB) (uid : Nat) (st s b : String)
    (ccs : List CostCenter) (status : String) (err : Option String) :
    countSent
        (EmailService.create_sent_log db uid st s b ccs status err).1 =
        countSent db + 1 ∧
    countReceived
        (EmailService.create_sent_log db uid st s b ccs status err).1 =
        countReceived db ∧
    countSentWithCC
        (EmailService.create_sent_log db uid st s b ccs status err).1 =
      countSentWithCC db := by
  unfold EmailService.create_sent_log
  simp [countSent, countReceived, countSentWithCC, isSentRow, isReceivedRow,
    List.filter_append]

theorem processRest_length (sendOk : Nat → Bool) (uid : Nat)
    (st s b : String) :
    ∀ (l : List CostCenter) (db : DB),
      (EmailService.processRest sendOk uid st s b db l).2.length =
        l.length := by
  intro l
  induction l with
  | nil => intro db; rfl
  | cons c cs ih =>
    intro db
    unfold EmailService.processRest
    simp [ih]

theorem processRest_counts (sendOk : Nat → Bool) (uid : Nat)
    (st s b : String) :
    ∀ (l : List CostCenter) (db : DB),
      countSent (EmailService.processRest sendOk uid st s b db l).1 =
          countSent db ∧
      countReceived (EmailService.processRest sendOk uid st s b db l).1 =
          countReceived db + (l.filter hasRecipients).length ∧
      countSentWithCC (EmailService.processRest sendOk uid st s b db l).1 =
        countSentWithCC db := by
  intro l
  induction l with
  | nil =>
    intro db
    exact ⟨rfl, by unfold EmailService.processRest; simp, rfl⟩
  | cons c cs ih =>
    intro db
    unfold EmailService.processRest
    obtain ⟨s1, r1, w1⟩ := stc_counts sendOk uid st s b db c
    obtain ⟨s2, r2, w2⟩ :=
      ih (EmailService.send_to_cost_center sendOk uid st s b db c).1
    refine ⟨?_, ?_, ?_⟩
    · simpa [s1] using s2
    · simp only [List.filter_cons]
      by_cases hr : hasRecipients c
      · simp [hr] at r1
        simp [hr, r2, r1]
        omega
      · simp [hr] at r1
        simp [hr, r2, r1]
    · simpa [w1] using w2

theorem send_email_cons (sendOk : Nat → Bool) (db : DB) (uid : Nat)
    (st s b : String) (ids : Option (List Nat)) (c : CostCenter)
    (rest : List CostCenter)
    (htarget : EmailService.targetCostCenters db st ids = .ok (c :: rest)) :
    ∃ db1 r1 db2 sentId db3 rs,
      EmailService.send_to_cost_center sendOk uid st s b db c = (db1, r1) ∧
      EmailService.create_sent_log db1 uid st s b (c :: rest)
        (if r1.success then "SUCCESS" else "FAILED") r1.error =
        (db2, sentId) ∧
      EmailService.processRest sendOk uid st s b db2 rest = (db3, rs) ∧
      EmailService.send_email sendOk db uid st s b ids =
        (db3, .summary
          (decide (((r1 :: rs).filter (·.success)).length > 0))
          ((r1 :: rs).filter (·.success)).length
          ((r1 :: rs).length - ((r1 :: rs).filter (·.success)).length)
          (r1 :: rs).length (some sentId) (r1 :: rs)) := by
  refine ⟨_, _, _, _, _, _, rfl, rfl, rfl, ?_⟩
  unfold EmailService.send_email
  rw [htarget]
  rfl

/-- C1 (amended): every send_email call that reaches the per-cost-center loop
creates exactly one SENT log, linked to no cost center, and exactly one
RECEIVED log per targeted cost center that has at least one recipient email
(a targeted cost center with no recipient emails produces no RECEIVED log). -/
theorem claim_C1_amended (sendOk : Nat → Bool) (db : DB) (uid : Nat)
    (st s b : String) (ids : Option (List Nat)) (ccs : List CostCenter)
    (htarget : EmailService.targetCostCenters db st ids = .ok ccs)
    (hne : ccs ≠ []) :
    countSent (EmailService.send_email sendOk db uid st s b ids).1 =
        countSent db + 1 ∧
    countReceived (EmailService.send_email sendOk db uid st s b ids).1 =
        countReceived db + (ccs.filter hasRecipients).length ∧
    countSentWithCC (EmailService.send_email sendOk db uid st s b ids).1 =
      countSentWithCC db := by
  cases ccs with
  | nil => exact absurd rfl hne
  | cons c rest =>
    obtain ⟨db1, r1, db2, sentId, db3, rs, h1, h2, h3, h4⟩ :=
      send_email_cons sendOk db uid st s b ids c rest htarget
    obtain ⟨s1, r1c, w1⟩ := stc_counts sendOk uid st s b db c
    rw [h1] at s1 r1c w1
    obtain ⟨s2, r2c, w2⟩ := csl_counts db1 uid st s b (c :: rest)
      (if r1.success then "SUCCESS" else "FAILED") r1.error
    rw [h2] at s2 r2c w2
    obtain ⟨s3, r3c, w3⟩ := processRest_counts sendOk uid st s b rest db2
    rw [h3] at s3 r3c w3
    rw [h4]
    dsimp only at s1 r1c w1 s2 r2c w2 s3 r3c w3 ⊢
    refine ⟨?_, ?_, ?_⟩
    · omega
    · rw [List.filter_cons]
      by_cases hr : hasRecipients c
      · simp [hr] at r1c ⊢
        omega
      · simp [hr] at r1c ⊢
        omega
    · omega

/-- Witness for C1 at a concrete one-cost-center database. -/
theorem claim_C1_amended_witness :
    countSent (EmailService.send_email (fun _ => true)
        ⟨[⟨1, "CC", true, ["a@x"], []⟩], [⟨3, "a@x"⟩], [], [], 0⟩ 1
        ("ANNOUNCEMENT") ("s") ("b") none).1 =
      countSent ⟨[⟨1, "CC", true, ["a@x"], []⟩], [⟨3, "a@x"⟩], [], [], 0⟩
        + 1 :=
  (claim_C1_amended (fun _ => true)
    ⟨[⟨1, "CC", true, ["a@x"], []⟩], [⟨3, "a@x"⟩], [], [], 0⟩ 1
    ("ANNOUNCEMENT") ("s") ("b") none
    [⟨1, "CC", true, ["a@x"], []⟩] (by decide) (by decide)).1

/-- The success flag of a send_email result dict. -/
def SendEmailResult.isSuccess : SendEmailResult → Bool
  | .failure _ => false
  | .summary success _ _ _ _ _ => success

/-- Counterexample to C1 as stated: an ANNOUNCEMENT targeting two active cost
centers, one of which has no recipient emails, returns success yet creates
only one RECEIVED log instead of one per targeted cost center. -/
theorem claim_C1_counterexample :
    (CostCenterManager.active
        ⟨[⟨1, "CC-A", true, [], []⟩, ⟨2, "CC-B", true, ["b@x"], []⟩],
         [⟨7, "b@x"⟩], [], [], 0⟩).length = 2
    ∧ (EmailService.send_email (fun _ => true)
        ⟨[⟨1, "CC-A", true, [], []⟩, ⟨2, "CC-B", true, ["b@x"], []⟩],
         [⟨7, "b@x"⟩], [], [], 0⟩ 1
        ("ANNOUNCEMENT") ("s") ("b") none).2.isSuccess = true
    ∧ countReceived (EmailService.send_email (fun _ => true)
        ⟨[⟨1, "CC-A", true, [], []⟩, ⟨2, "CC-B", true, ["b@x"], []⟩],
         [⟨7, "b@x"⟩], [], [], 0⟩ 1
        ("ANNOUNCEMENT") ("s") ("b") none).1 = 1 := by
  refine ⟨by decide, by decide, by decide⟩

/-- C8: whenever send_email reaches the per-cost-center loop, the returned
summary satisfies sent_count + failed_count = total_cost_centers, where
total_cost_centers is the number of targeted cost centers, the success flag
is true exactly when sent_count > 0, and a single SENT log row is created
even when every cost center fails. -/
theorem claim_C8 (sendOk : Nat → Bool) (db : DB) (uid : Nat)
    (st s b : String) (ids : Option (List Nat)) (ccs : List CostCenter)
    (htarget : EmailService.targetCostCenters db st ids = .ok ccs)
    (hne : ccs ≠ []) :
    ∃ sent failed lid details,
      (EmailService.send_email sendOk db uid st s b ids).2 =
        .summary (decide (sent > 0)) sent failed ccs.length lid details ∧
      sent + failed = ccs.length ∧
      countSent (EmailService.send_email sendOk db uid st s b ids).1 =
        countSent db + 1 := by
  cases ccs with
  | nil => exact absurd rfl hne
  | cons c rest =>
    obtain ⟨db1, r1, db2, sentId, db3, rs, h1, h2, h3, h4⟩ :=
      send_email_cons sendOk db uid st s b ids c rest htarget
    have hlen : rs.length = rest.length := by
      have h5 := processRest_length sendOk uid st s b rest db2
      rw [h3] at h5
      exact h5
    have hle : ((r1 :: rs).filter (·.success)).length ≤ (r1 :: rs).length :=
      List.length_filter_le _ _
    refine ⟨((r1 :: rs).filter (·.success)).length,
      (r1 :: rs).length - ((r1 :: rs).filter (·.success)).length,
      some sentId, r1 :: rs, ?_, ?_, ?_⟩
    · rw [h4]
      dsimp only
      rw [List.length_cons, List.length_cons, hlen]
    · simp only [List.length_cons] at hle ⊢
      omega
    · obtain ⟨s1, r1c, w1⟩ := stc_counts sendOk uid st s b db c
      rw [h1] at s1
      obtain ⟨s2, r2c, w2⟩ := csl_counts db1 uid st s b (c :: rest)
        (if r1.success then "SUCCESS" else "FAILED") r1.error
      rw [h2] at s2
      obtain ⟨s3, r3c, w3⟩ := processRest_counts sendOk uid st s b rest db2
      rw [h3] at s3
      rw [h4]
      dsimp only at s1 s2 s3 ⊢
      omega

/-- Witness for C8: a single-cost-center send where the transmission fails,
reporting success false with sent_count 0, failed_count 1, while one SENT
log row exists. -/
theorem claim_C8_witness :
    ∃ sent failed lid details,
      (EmailService.send_email (fun _ => false)
        ⟨[⟨1, "CC", true, ["a@x"], []⟩], [⟨3, "a@x"⟩], [], [], 0⟩ 1
        ("ANNOUNCEMENT") ("s") ("b") none).2 =
        .summary (decide (sent > 0)) sent failed
          ([⟨1, "CC", true, ["a@x"], []⟩] : List CostCenter).length lid
          details ∧
      sent + failed = ([⟨1, "CC", true, ["a@x"], []⟩] : List CostCenter).length ∧
      countSent (EmailService.send_email (fun _ => false)
        ⟨[⟨1, "CC", true, ["a@x"], []⟩], [⟨3, "a@x"⟩], [], [], 0⟩ 1
        ("ANNOUNCEMENT") ("s") ("b") none).1 =
        countSent ⟨[⟨1, "CC", true, ["a@x"], []⟩], [⟨3, "a@x"⟩], [], [], 0⟩
          + 1 :=
  claim_C8 (fun _ => false)
    ⟨[⟨1, "CC", true, ["a@x"], []⟩], [⟨3, "a@x"⟩], [], [], 0⟩ 1
    ("ANNOUNCEMENT") ("s") ("b") none [⟨1, "CC", true, ["a@x"], []⟩]
    (by decide) (by decide)

/-! ## Recipient-tracking lemmas for C2 -/

/-- Number of tracking rows for a given (email_log, recipient_user) pair. -/
def countPair (views : List RecipientViewRow) (logId uid : Nat) : Nat :=
  (views.filter (fun r =>
    decide (r.email_log = logId ∧ r.recipient_user = uid))).length

theorem countPair_append (a b : List RecipientViewRow) (logId uid : Nat) :
    countPair (a ++ b) logId uid =
      countPair a logId uid + countPair b logId uid := by
  simp [countPair, List.filter_append]

theorem countPair_pos_iff (views : List RecipientViewRow) (logId uid : Nat) :
    0 < countPair views logId uid ↔
      ∃ r ∈ views, r.email_log = logId ∧ r.recipient_user = uid := by
  rw [countPair, List.length_pos]
  constructor
  · intro h
    obtain ⟨r, hr⟩ := List.exists_mem_of_ne_nil _ h
    have := List.mem_filter.1 hr
    exact ⟨r, this.1, of_decide_eq_true this.2⟩
  · rintro ⟨r, hr, h1, h2⟩
    intro hnil
    have := List.filter_eq_nil_iff.1 hnil r hr
    simp [h1, h2] at this

theorem addCcRows_shape (logId : Nat) :
    ∀ (us : List UserRec) (views : List RecipientViewRow),
      ∃ extra, addCcRows logId us views = views ++ extra ∧
        ∀ r ∈ extra, r.email_log = logId ∧ r.is_read = false ∧
          r.read_at = none := by
  intro us
  induction us with
  | nil => exact fun views => ⟨[], by simp [addCcRows], by simp⟩
  | cons u rest ih =>
    intro views
    unfold addCcRows
    by_cases h : views.any (fun r =>
        decide (r.email_log = logId ∧ r.recipient_user = u.id))
    · rw [if_pos h]
      exact ih views
    · rw [if_neg h]
      obtain ⟨extra, he, hr⟩ := ih (views ++
        [{ email_log := logId, recipient_user := u.id, is_to := false,
           is_read := false, read_at := none, is_starred := false,
           is_archived := false }])
      refine ⟨(⟨logId, u.id, false, false, none, false, false⟩ :
          RecipientViewRow) :: extra, ?_, ?_⟩
      · rw [he, List.append_assoc]
        rfl
      · intro r hmem
        rcases List.mem_cons.1 hmem with h1 | h1
        · subst h1; exact ⟨rfl, rfl, rfl⟩
        · exact hr r h1

theorem addCcRows_countPair (logId : Nat) :
    ∀ (us : List UserRec) (views : List RecipientViewRow) (uid : Nat),
      countPair (addCcRows logId us views) logId uid =
        if countPair views logId uid = 0 ∧ uid ∈ us.map (·.id) then 1
        else countPair views logId uid := by
  intro us
  induction us with
  | nil =>
    intro views uid
    simp [addCcRows]
  | cons u rest ih =>
    intro views uid
    unfold addCcRows
    by_cases h : views.any (fun r =>
        decide (r.email_log = logId ∧ r.recipient_user = u.id))
    · rw [if_pos h]
      have hpos : 0 < countPair views logId u.id := by
        rw [countPair_pos_iff]
        obtain ⟨r, hr, hp⟩ := List.any_eq_true.1 h
        exact ⟨r, hr, of_decide_eq_true hp⟩
      rw [ih views uid]
      by_cases hid : u.id = uid
      · subst hid
        have hne : ¬ countPair views logId u.id = 0 := by omega
        simp [hne]
      · have hid2 : ¬ uid = u.id := fun hh => hid hh.symm
        simp [hid2]
    · rw [if_neg h]
      have h0 : countPair views logId u.id = 0 := by
        by_contra hc
        have hpos := Nat.pos_of_ne_zero hc
        rw [countPair_pos_iff] at hpos
        obtain ⟨r, hr, h1, h2⟩ := hpos
        exact absurd (List.any_eq_true.2
          ⟨r, hr, decide_eq_true ⟨h1, h2⟩⟩) h
      by_cases hid : u.id = uid
      · subst hid
        have hv1 : countPair (views ++
            [(⟨logId, u.id, false, false, none, false, false⟩ :
              RecipientViewRow)]) logId u.id = 1 := by
          rw [countPair_append, h0]
          simp [countPair]
        rw [ih _ u.id, hv1]
        simp [h0]
      · have hv2 : countPair (views ++
            [(⟨logId, u.id, false, false, none, false, false⟩ :
              RecipientViewRow)]) logId uid = countPair views logId uid := by
          rw [countPair_append]
          simp [countPair, hid]
        rw [ih _ uid, hv2]
        have hid2 : ¬ uid = u.id := fun hh => hid hh.symm
        simp [hid2]

theorem countPair_toRowsMap (logId uid : Nat) (tos : List UserRec) :
    countPair (tos.map (fun u =>
      (⟨logId, u.id, true, false, none, false, false⟩ : RecipientViewRow)))
      logId uid = (tos.filter (fun u => decide (u.id = uid))).length := by
  induction tos with
  | nil => rfl
  | cons u rest ih =>
    simp only [List.map_cons, List.filter_cons, countPair, Bool.decide_and]
      at ih ⊢
    by_cases h : u.id = uid <;> simp [h, ih]

theorem addToRows_countPair (logId uid : Nat) (tos : List UserRec)
    (views : List RecipientViewRow) :
    countPair (addToRows logId tos views) logId uid =
      countPair views logId uid +
        (tos.filter (fun u => decide (u.id = uid))).length := by
  unfold addToRows
  rw [countPair_append, countPair_toRowsMap]

theorem count_id_if (l : List UserRec) (hnd : (l.map (·.id)).Nodup)
    (u : UserRec) (hu : u ∈ l) (p : UserRec → Bool) :
    (l.filter (fun v => decide (v.id = u.id) && p v)).length =
      if p u then 1 else 0 := by
  induction l with
  | nil => cases hu
  | cons v rest ih =>
    rw [List.map_cons, List.nodup_cons] at hnd
    obtain ⟨hvid, hrest⟩ := hnd
    rw [List.filter_cons]
    rcases List.mem_cons.1 hu with h1 | h1
    · subst h1
      have hzero : (rest.filter
          (fun v => decide (v.id = u.id) && p v)).length = 0 := by
        rw [List.length_eq_zero, List.filter_eq_nil_iff]
        intro w hw hdec
        rw [Bool.and_eq_true] at hdec
        have hwid : w.id = u.id := of_decide_eq_true hdec.1
        exact hvid (hwid ▸ List.mem_map_of_mem (·.id) hw)
      by_cases hp : p u
      · have hcond : (decide (u.id = u.id) && p u) = true := by simp [hp]
        rw [if_pos hp, if_pos hcond, List.length_cons, hzero]
      · have hcond : ¬ ((decide (u.id = u.id) && p u) = true) := by
          simp [hp]
        rw [if_neg hp, if_neg hcond, hzero]
    · have hvne : v.id ≠ u.id :=
        fun he => hvid (he ▸ List.mem_map_of_mem (·.id) h1)
      have hcond : ¬ ((decide (v.id = u.id) && p v) = true) := by
        simp [hvne]
      rw [if_neg hcond]
      exact ih hrest h1

theorem count_id_le_one (l : List UserRec) (hnd : (l.map (·.id)).Nodup)
    (uid : Nat) (p : UserRec → Bool) :
    (l.filter (fun v => decide (v.id = uid) && p v)).length ≤ 1 := by
  induction l with
  | nil => simp
  | cons v rest ih =>
    rw [List.map_cons, List.nodup_cons] at hnd
    obtain ⟨hvid, hrest⟩ := hnd
    rw [List.filter_cons]
    by_cases hc : (decide (v.id = uid) && p v) = true
    · rw [if_pos hc]
      have hc2 := hc
      rw [Bool.and_eq_true] at hc2
      have hid : v.id = uid := of_decide_eq_true hc2.1
      have hzero : (rest.filter
          (fun w => decide (w.id = uid) && p w)).length = 0 := by
        rw [List.length_eq_zero, List.filter_eq_nil_iff]
        intro w hw hdec
        rw [Bool.and_eq_true] at hdec
        have hwid : w.id = uid := of_decide_eq_true hdec.1
        exact hvid ((hid.trans hwid.symm) ▸ List.mem_map_of_mem (·.id) hw)
      rw [List.length_cons, hzero]
    · rw [if_neg hc]
      exact ih hrest

theorem addToRows_countPair_filter (db : DB) (logId uid : Nat)
    (toL : List String)
    (hfc : countPair db.recipient_views logId uid = 0) :
    countPair (addToRows logId
        (db.users.filter (fun u => decide (u.email ∈ toL)))
        db.recipient_views) logId uid =
      (db.users.filter (fun v =>
        decide (v.id = uid) && decide (v.email ∈ toL))).length := by
  rw [addToRows_countPair, hfc, List.filter_filter]
  omega

/-- C2 (amended): for a tracking run on a fresh RECEIVED log (as performed by
_create_recipient_tracking when the transmission succeeded), the new rows are
exactly appended, each with the log's id, is_read false and read_at unset;
every user whose email is in the TO or CC list gets exactly one row; and no
(email_log, recipient_user) pair ever gets more than one row, even when the
same user appears in both the TO and the CC lists. -/
theorem claim_C2_amended (db : DB) (logId : Nat) (toL ccL : List String)
    (hfresh : ∀ r ∈ db.recipient_views, r.email_log ≠ logId)
    (hnd : (db.users.map (·.id)).Nodup) :
    (∃ newRows,
      (EmailService.create_recipient_tracking db logId toL
          ccL).recipient_views = db.recipient_views ++ newRows ∧
      ∀ r ∈ newRows, r.email_log = logId ∧ r.is_read = false ∧
        r.read_at = none)
    ∧ (∀ u ∈ db.users, (u.email ∈ toL ∨ u.email ∈ ccL) →
        countPair (EmailService.create_recipient_tracking db logId toL
          ccL).recipient_views logId u.id = 1)
    ∧ (∀ uid, countPair (EmailService.create_recipient_tracking db logId toL
        ccL).recipient_views logId uid ≤ 1) := by
  have hv : (EmailService.create_recipient_tracking db logId toL
      ccL).recipient_views =
      addCcRows logId (db.users.filter (fun u => decide (u.email ∈ ccL)))
        (addToRows logId
          (db.users.filter (fun u => decide (u.email ∈ toL)))
          db.recipient_views) := rfl
  have hfc : ∀ uid, countPair db.recipient_views logId uid = 0 := by
    intro uid
    rw [countPair, List.length_eq_zero, List.filter_eq_nil_iff]
    intro r hr hdec
    exact hfresh r hr (of_decide_eq_true hdec).1
  refine ⟨?_, ?_, ?_⟩
  · obtain ⟨extra, he, hex⟩ := addCcRows_shape logId
      (db.users.filter (fun u => decide (u.email ∈ ccL)))
      (addToRows logId
        (db.users.filter (fun u => decide (u.email ∈ toL)))
        db.recipient_views)
    refine ⟨(db.users.filter (fun u => decide (u.email ∈ toL))).map
        (fun u => (⟨logId, u.id, true, false, none, false, false⟩ :
          RecipientViewRow)) ++ extra, ?_, ?_⟩
    · rw [hv, he]
      unfold addToRows
      rw [List.append_assoc]
    · intro r hr
      rcases List.mem_append.1 hr with h1 | h1
      · obtain ⟨u, _, hru⟩ := List.mem_map.1 h1
        subst hru
        exact ⟨rfl, rfl, rfl⟩
      · exact hex r h1
  · intro u hu hmem
    rw [hv, addCcRows_countPair]
    by_cases hto_mem : u.email ∈ toL
    · have h1 : countPair (addToRows logId
          (db.users.filter (fun v => decide (v.email ∈ toL)))
          db.recipient_views) logId u.id = 1 := by
        rw [addToRows_countPair_filter db logId u.id toL (hfc u.id),
          count_id_if db.users hnd u hu
            (fun v => decide (v.email ∈ toL)),
          if_pos (decide_eq_true hto_mem)]
      rw [h1]
      rw [if_neg]
      rintro ⟨h0, _⟩
      omega
    · have hcc_mem : u.email ∈ ccL := hmem.resolve_left hto_mem
      have h1 : countPair (addToRows logId
          (db.users.filter (fun v => decide (v.email ∈ toL)))
          db.recipient_views) logId u.id = 0 := by
        rw [addToRows_countPair_filter db logId u.id toL (hfc u.id),
          count_id_if db.users hnd u hu
            (fun v => decide (v.email ∈ toL))]
        simp [hto_mem]
      have hmemid : u.id ∈
          ((db.users.filter (fun v => decide (v.email ∈ ccL))).map
            (·.id)) :=
        List.mem_map.2 ⟨u,
          List.mem_filter.2 ⟨hu, decide_eq_true hcc_mem⟩, rfl⟩
      rw [h1, if_pos ⟨rfl, hmemid⟩]
  · intro uid
    rw [hv, addCcRows_countPair]
    have hb : countPair (addToRows logId
        (db.users.filter (fun v => decide (v.email ∈ toL)))
        db.recipient_views) logId uid ≤ 1 := by
      rw [addToRows_countPair_filter db logId uid toL (hfc uid)]
      exact count_id_le_one db.users hnd uid _
    split
    · exact le_refl 1
    · exact hb

/-- Witness for C2 at a concrete database with one user in both TO and CC. -/
theorem claim_C2_amended_witness :
    (∃ newRows,
      (EmailService.create_recipient_tracking ⟨[], [⟨1, "a@x"⟩], [], [], 0⟩
          5 (["a@x"]) (["a@x"])).recipient_views =
        (⟨[], [⟨1, "a@x"⟩], [], [], 0⟩ : DB).recipient_views ++ newRows ∧
      ∀ r ∈ newRows, r.email_log = 5 ∧ r.is_read = false ∧
        r.read_at = none)
    ∧ (∀ u ∈ (⟨[], [⟨1, "a@x"⟩], [], [], 0⟩ : DB).users,
        (u.email ∈ (["a@x"] : List String) ∨
          u.email ∈ (["a@x"] : List String)) →
        countPair (EmailService.create_recipient_tracking
          ⟨[], [⟨1, "a@x"⟩], [], [], 0⟩ 5 (["a@x"])
          (["a@x"])).recipient_views 5 u.id = 1)
    ∧ (∀ uid, countPair (EmailService.create_recipient_tracking
        ⟨[], [⟨1, "a@x"⟩], [], [], 0⟩ 5 (["a@x"])
        (["a@x"])).recipient_views 5 uid ≤ 1) :=
  claim_C2_amended ⟨[], [⟨1, "a@x"⟩], [], [], 0⟩ 5 (["a@x"]) (["a@x"])
    (by simp) (by decide)

/-- Counterexample to C2 as stated: when the transmission to a cost center
fails, the send still creates the RECEIVED log but creates no
EmailRecipientView row at all, although a recipient user of that cost center
exists. -/
theorem claim_C2_counterexample :
    (EmailService.send_email (fun _ => false)
        ⟨[⟨1, "CC", true, ["a@x"], []⟩], [⟨3, "a@x"⟩], [], [], 0⟩ 9
        ("ANNOUNCEMENT") ("s") ("b") none).1.recipient_views = []
    ∧ countReceived (EmailService.send_email (fun _ => false)
        ⟨[⟨1, "CC", true, ["a@x"], []⟩], [⟨3, "a@x"⟩], [], [], 0⟩ 9
        ("ANNOUNCEMENT") ("s") ("b") none).1 = 1
    ∧ ((⟨[⟨1, "CC", true, ["a@x"], []⟩], [⟨3, "a@x"⟩], [], [], 0⟩ :
        DB).users.filter (fun u => decide (u.email ∈
          (["a@x"] : List String)))).length = 1 := by
  exact ⟨by decide, by decide, by decide⟩

/-! ## String lemmas for the round-trip claims -/

theorem pySplit_no_sep (sep : Char) (p : List Char) (h : sep ∉ p) :
    pySplit sep p = [p] := by
  induction p with
  | nil => rfl
  | cons c rest ih =>
    rw [List.mem_cons, not_or] at h
    obtain ⟨hc, hrest⟩ := h
    unfold pySplit
    rw [if_neg (fun hh => hc (hh.symm)), ih hrest]

theorem pySplit_append (sep : Char) (p t : List Char) (h : sep ∉ p) :
    pySplit sep (p ++ sep :: t) = p :: pySplit sep t := by
  induction p with
  | nil =>
    rw [List.nil_append, pySplit, if_pos rfl]
  | cons c rest ih =>
    rw [List.mem_cons, not_or] at h
    obtain ⟨hc, hrest⟩ := h
    rw [List.cons_append, pySplit, if_neg (fun hh => hc (hh.symm)),
      ih hrest]

theorem split_join (sep : Char) :
    ∀ parts : List (List Char), parts ≠ [] →
      (∀ p ∈ parts, sep ∉ p) →
      pySplit sep (pyJoin sep parts) = parts := by
  intro parts
  induction parts with
  | nil => intro h; exact absurd rfl h
  | cons p ps ih =>
    intro _ hmem
    cases ps with
    | nil => exact pySplit_no_sep sep p (hmem p (List.mem_cons_self p []))
    | cons q ps2 =>
      have hjoin : pyJoin sep (p :: q :: ps2) =
          p ++ sep :: pyJoin sep (q :: ps2) := rfl
      rw [hjoin, pySplit_append sep p _ (hmem p (List.mem_cons_self p _)),
        ih (by simp) (fun r hr => hmem r (List.mem_cons_of_mem p hr))]

theorem pyJoin_ne_nil (sep : Char) (p : List Char) (ps : List (List Char))
    (h : p ≠ []) : pyJoin sep (p :: ps) ≠ [] := by
  cases ps with
  | nil => exact h
  | cons q ps2 =>
    have : pyJoin sep (p :: q :: ps2) = p ++ sep :: pyJoin sep (q :: ps2) :=
      rfl
    rw [this]
    simp

theorem dropWhile_eq_self_of (l : List Char)
    (h : ∀ c ∈ l, pyIsSpace c = false) : l.dropWhile pyIsSpace = l := by
  cases l with
  | nil => rfl
  | cons c t =>
    rw [List.dropWhile_cons, h c (List.mem_cons_self c t)]
    simp

theorem pyStrip_eq_self (l : List Char)
    (h : ∀ c ∈ l, pyIsSpace c = false) : pyStrip l = l := by
  unfold pyStrip
  rw [dropWhile_eq_self_of l h,
    dropWhile_eq_self_of l.reverse (fun c hc => h c (List.mem_reverse.1 hc)),
    List.reverse_reverse]

theorem digitChar_mem (d : Nat) :
    digitChar d ∈ (['0', '1', '2', '3', '4', '5', '6', '7', '8', '9'] :
      List Char) := by
  unfold digitChar
  split <;> decide

theorem digit_facts :
    ∀ c ∈ (['0', '1', '2', '3', '4', '5', '6', '7', '8', '9'] : List Char),
      c ≠ ',' ∧ c ≠ '-' ∧ c ≠ '+' ∧ pyIsSpace c = false := by decide

theorem natDigits_mem (n : Nat) :
    ∀ c ∈ natDigits n,
      c ∈ (['0', '1', '2', '3', '4', '5', '6', '7', '8', '9'] :
        List Char) := by
  induction n using Nat.strong_induction_on with
  | _ n ih =>
    intro c hc
    unfold natDigits at hc
    split at hc
    · rw [List.mem_singleton.1 hc]
      exact digitChar_mem n
    · rcases List.mem_append.1 hc with h1 | h1
      · exact ih (n / 10) (by omega) c h1
      · rw [List.mem_singleton.1 h1]
        exact digitChar_mem (n % 10)

theorem natDigits_ne_nil (n : Nat) : natDigits n ≠ [] := by
  unfold natDigits
  split <;> simp

theorem digitVal_digitChar (d : Nat) (h : d < 10) :
    digitVal (digitChar d) = d := by
  interval_cases d <;> decide

theorem parseNat_append_digit (xs : List Char) (c : Char) :
    parseNat (xs ++ [c]) = 10 * parseNat xs + digitVal c := by
  unfold parseNat
  rw [List.foldl_append]
  rfl

theorem parseNat_natDigits (n : Nat) : parseNat (natDigits n) = n := by
  induction n using Nat.strong_induction_on with
  | _ n ih =>
    unfold natDigits
    by_cases h : n < 10
    · rw [dif_pos h]
      have h1 : parseNat [digitChar n] = digitVal (digitChar n) := by
        unfold parseNat
        simp
      rw [h1, digitVal_digitChar n h]
    · rw [dif_neg h, parseNat_append_digit, ih (n / 10) (by omega),
        digitVal_digitChar (n % 10) (by omega)]
      omega

theorem pyParseInt_pyIntStr (i : Int) : pyParseInt (pyIntStr i) = i := by
  unfold pyIntStr
  by_cases h : i < 0
  · rw [if_pos h, pyParseInt, if_pos rfl, parseNat_natDigits]
    omega
  · rw [if_neg h]
    obtain ⟨c, rest, hcr⟩ : ∃ c rest, natDigits i.toNat = c :: rest := by
      cases hnd : natDigits i.toNat with
      | nil => exact absurd hnd (natDigits_ne_nil _)
      | cons c rest => exact ⟨c, rest, rfl⟩
    have hcmem := natDigits_mem i.toNat c
      (hcr ▸ List.mem_cons_self c rest)
    obtain ⟨_, hcm, hcp, _⟩ := digit_facts c hcmem
    rw [hcr, pyParseInt, if_neg hcm, if_neg hcp, ← hcr,
      parseNat_natDigits]
    omega

theorem pyIntStr_facts (i : Int) :
    pyIntStr i ≠ [] ∧ (',' ∉ pyIntStr i) ∧
      ∀ c ∈ pyIntStr i, pyIsSpace c = false := by
  unfold pyIntStr
  by_cases h : i < 0
  · rw [if_pos h]
    refine ⟨by simp, ?_, ?_⟩
    · intro hmem
      rcases List.mem_cons.1 hmem with h1 | h1
      · exact absurd h1.symm (by decide)
      · exact absurd rfl (digit_facts _ (natDigits_mem _ _ h1)).1
    · intro c hc
      rcases List.mem_cons.1 hc with h1 | h1
      · rw [h1]
        decide
      · exact (digit_facts c (natDigits_mem _ c h1)).2.2.2
  · rw [if_neg h]
    refine ⟨natDigits_ne_nil _, ?_, ?_⟩
    · intro hmem
      exact absurd rfl (digit_facts _ (natDigits_mem _ _ hmem)).1
    · intro c hc
      exact (digit_facts c (natDigits_mem _ c hc)).2.2.2

theorem map_strip_of (ps : List (List Char))
    (h : ∀ p ∈ ps, pyStrip p = p) : ps.map pyStrip = ps := by
  induction ps with
  | nil => rfl
  | cons p rest ih =>
    rw [List.map_cons, h p (List.mem_cons_self p rest),
      ih (fun q hq => h q (List.mem_cons_of_mem p hq))]

theorem filter_ne_nil_of (ps : List (List Char))
    (h : ∀ p ∈ ps, p ≠ []) : ps.filter (· ≠ []) = ps := by
  rw [List.filter_eq_self]
  intro p hp
  exact decide_eq_true (h p hp)

theorem map_parse_intStr (ids : List Int) :
    (ids.map pyIntStr).map pyParseInt = ids := by
  induction ids with
  | nil => rfl
  | cons i rest ih =>
    rw [List.map_cons, List.map_cons, pyParseInt_pyIntStr, ih]

theorem get_set_cost_center_list (ids : List Int) :
    EmailDraft.get_cost_center_list
      (some (EmailDraft.set_cost_center_list ids)) = ids := by
  cases ids with
  | nil => rfl
  | cons i rest =>
    unfold EmailDraft.set_cost_center_list EmailDraft.get_cost_center_list
    have hne : pyJoin ',' ((i :: rest).map pyIntStr) ≠ [] := by
      rw [List.map_cons]
      exact pyJoin_ne_nil ',' _ _ (pyIntStr_facts i).1
    have hcomma : ∀ p ∈ (i :: rest).map pyIntStr, ',' ∉ p := by
      intro p hp
      obtain ⟨j, _, hj⟩ := List.mem_map.1 hp
      rw [← hj]
      exact (pyIntStr_facts j).2.1
    have hstrip : ∀ p ∈ (i :: rest).map pyIntStr, pyStrip p = p := by
      intro p hp
      obtain ⟨j, _, hj⟩ := List.mem_map.1 hp
      rw [← hj]
      exact pyStrip_eq_self (pyIntStr j) (pyIntStr_facts j).2.2
    have hnil : ∀ p ∈ (i :: rest).map pyIntStr, p ≠ [] := by
      intro p hp
      obtain ⟨j, _, hj⟩ := List.mem_map.1 hp
      rw [← hj]
      exact (pyIntStr_facts j).1
    dsimp only
    rw [if_neg hne, split_join ',' _ (by simp) hcomma,
      map_strip_of _ hstrip, filter_ne_nil_of _ hnil, map_parse_intStr]

theorem get_set_recipient_list (emails : List (List Char))
    (h : ∀ e ∈ emails, e ≠ [] ∧ (',' ∉ e) ∧ pyStrip e = e) :
    EmailLog.get_recipient_list
      (some (EmailLog.set_recipient_list emails)) = emails := by
  cases emails with
  | nil => rfl
  | cons e rest =>
    unfold EmailLog.set_recipient_list EmailLog.get_recipient_list
    have hne : pyJoin ',' (e :: rest) ≠ [] :=
      pyJoin_ne_nil ',' _ _ (h e (List.mem_cons_self e rest)).1
    dsimp only
    rw [if_neg hne, split_join ',' _ (by simp) (fun p hp => (h p hp).2.1),
      map_strip_of _ (fun p hp => (h p hp).2.2),
      filter_ne_nil_of _ (fun p hp => (h p hp).1)]

/-- Counterexample to C10 as stated: a non-empty, comma-free email string
with a leading space does not survive the set/get round-trip, because
get_recipient_list strips each entry. -/
theorem claim_C10_counterexample :
    EmailLog.get_recipient_list
        (some (EmailLog.set_recipient_list [[' ', 'a']])) = [['a']] ∧
      ([[' ', 'a']] : List (List Char)) ≠ [['a']] := by
  exact ⟨by decide, by decide⟩

/-- C10 (amended): set_cost_center_list / get_cost_center_list round-trips
every list of integer ids, get_cost_center_list returns [] when the field is
unset or empty, and set_recipient_list / get_recipient_list round-trips every
list of non-empty, comma-free email strings that carry no leading or trailing
whitespace (strings a strip() call would alter are changed by the trip). -/
theorem claim_C10_amended :
    (∀ ids : List Int,
      EmailDraft.get_cost_center_list
        (some (EmailDraft.set_cost_center_list ids)) = ids)
    ∧ EmailDraft.get_cost_center_list none = []
    ∧ EmailDraft.get_cost_center_list (some []) = []
    ∧ (∀ emails : List (List Char),
        (∀ e ∈ emails, e ≠ [] ∧ (',' ∉ e) ∧ pyStrip e = e) →
        EmailLog.get_recipient_list
          (some (EmailLog.set_recipient_list emails)) = emails) :=
  ⟨get_set_cost_center_list, rfl, rfl, get_set_recipient_list⟩

/-- Witness for C10 at concrete id and email lists. -/
theorem claim_C10_amended_witness :
    EmailDraft.get_cost_center_list
        (some (EmailDraft.set_cost_center_list [(12 : Int), -3])) =
        [12, -3] ∧
      EmailLog.get_recipient_list
        (some (EmailLog.set_recipient_list [['a'], ['b', '@', 'x']])) =
        [['a'], ['b', '@', 'x']] :=
  ⟨claim_C10_amended.1 [12, -3],
   claim_C10_amended.2.2.2 [['a'], ['b', '@', 'x']] (by decide)⟩
